import Mathlib

/-!
Shallow embedding of the debug-mode subsystem of
`src/lib/charms/osm_libs/v0/utils.py` (the `HostPath` resolver and the
`DebugMode` controller), together with proofs of the specification claims.

Conventions:
* Python strings are Lean `String`; Python `str.split(sep)` is `String.splitOn`
  (both return `[""]` on the empty string and keep empty segments).
* The charm config (`self.charm.config`) is an association list
  `List (String × String)`; `config.get(k)` is `configGet`, and Python
  truthiness of the looked-up string value (`if config.get(k)`) is
  `configTruthy` (present and non-empty).
* External inputs that the code reads (pod IP from `socket`, entropy consumed
  by `secrets.token_hex`, the workspace file read at construction, the live
  StatefulSet fetched from the cluster, the Pebble plan) are fields of the
  `World` state record.
* Cluster and container side effects (`client.replace`, `container.push`,
  `container.exec`, `container.stop`) are recorded in an `Effect` trace.
* Python exceptions are modelled by returning `Option DebugErr` next to the
  state reached when the exception propagates; injected Pebble failures are
  described by a `FailSpec`.
-/

namespace OsmUtils

/-- Python `str.split(sep)` for a single-character separator (the source only
splits on `"-"` and `"/"`), on the character list: always at least one group,
empty groups kept, `"".split(sep) == [""]`. -/
def splitOnChar (sep : Char) : List Char → List (List Char)
  | [] => [[]]
  | c :: cs =>
    match splitOnChar sep cs with
    | [] => [[]]
    | g :: gs => if c = sep then [] :: g :: gs else (c :: g) :: gs

/-- Python `str.split(sep)` for a single-character separator. -/
def pySplit (s : String) (sep : Char) : List String :=
  (splitOnChar sep s.toList).map String.mk

/-- Embeds `SubModule` dataclass of `utils.py`. -/
structure SubModule where
  sub_module_path : String
  container_path : String
  deriving DecidableEq, Repr

/-- Embeds `HostPath` object of `utils.py` after `__init__` ran.  The attributes
`container_path` / `module_name` are only set in Python when no submodules are
given; absence is modelled with `Option`. -/
structure HostPath where
  mount_path : String
  config : String
  sub_module_dict : List (String × SubModule)
  container_path : Option String
  module_name : Option String
  deriving DecidableEq, Repr

/-- Embeds `HostPath.__init__(config, container_path, submodules)`.
`submodules` is a dict (association list); Python truthiness of the dict (`if submodules:`) is true
exactly when the dict is present and non-empty. -/
def HostPath.make (config : String) (container_path : String)
    (submodules : Option (List (String × String))) : HostPath :=
  let mount_path_items := (pySplit config '-').reverse
  let mount_path := "/" ++ String.intercalate "/" mount_path_items
  match submodules with
  | some subs =>
    if subs.isEmpty then
      { mount_path := mount_path, config := config, sub_module_dict := []
        container_path := some container_path
        module_name := some ((pySplit container_path '/').getLastD "") }
    else
      { mount_path := mount_path, config := config
        sub_module_dict := subs.map (fun p =>
          (p.1, { sub_module_path :=
                    mount_path ++ "/" ++ p.1 ++ "/" ++ (pySplit p.2 '/').getLastD ""
                  container_path := p.2 }))
        container_path := none, module_name := none }
  | none =>
      { mount_path := mount_path, config := config, sub_module_dict := []
        container_path := some container_path
        module_name := some ((pySplit container_path '/').getLastD "") }

/-- One hex digit, lowercase, as produced by `secrets.token_hex`. -/
def hexDigitChar (n : Nat) : Char :=
  if n < 10 then Char.ofNat (48 + n) else Char.ofNat (87 + n)

/-- Little-endian list of `k` hex digits of `seed`. -/
def tokenHexChars : Nat → Nat → List Char
  | 0, _ => []
  | k + 1, s => hexDigitChar (s % 16) :: tokenHexChars k (s / 16)

/-- Embeds `secrets.token_hex(nbytes)`: `2 * nbytes` lowercase hex characters.  The
entropy drawn from the OS is modelled by `seed`. -/
def token_hex (nbytes : Nat) (seed : Nat) : String :=
  String.mk (tokenHexChars (2 * nbytes) seed)

/-- The character set of `secrets.token_hex` output. -/
def isHexChar (c : Char) : Bool :=
  ("0123456789abcdef".toList).contains c

/-- Embeds `lightkube` `HostPathVolumeSource` (the fields the code uses). -/
structure HostPathVolumeSource where
  path : String
  type : String
  deriving DecidableEq, Repr

/-- Embeds `lightkube` `Volume` (the fields the code uses): a named volume, with a
host-path source when it is one of the debug-mode volumes. -/
structure Volume where
  name : String
  hostPath : Option HostPathVolumeSource
  deriving DecidableEq, Repr

/-- Embeds `lightkube` `VolumeMount` (the fields the code uses). -/
structure VolumeMount where
  name : String
  mountPath : String
  deriving DecidableEq, Repr

/-- A container entry of the StatefulSet pod template
(`statefulset.spec.template.spec.containers[i]`). -/
structure SSContainer where
  name : String
  volumeMounts : List VolumeMount
  deriving DecidableEq, Repr

/-- Embeds `statefulset.spec.template.spec`: the part of the fetched StatefulSet the
code reads and mutates. -/
structure PodSpec where
  volumes : List Volume
  containers : List SSContainer
  deriving DecidableEq, Repr

/-- A Pebble service from `container.get_plan().services` (the field the code
uses). -/
structure PebbleService where
  environment : List (String × String)
  deriving DecidableEq, Repr

/-- Embeds `ops.model` status values assigned by the code. -/
inductive Status where
  | active (msg : String)
  | maintenance (msg : String)
  | blocked (msg : String)
  | waiting (msg : String)
  deriving DecidableEq, Repr

/-- The `StoredState` fields managed by `DebugMode` (`_stored.set_default`
names and default values are in `DebugMode.__init__`). -/
structure StoredState where
  debug_mode_started : Bool
  debug_mode_vscode_command : Option String
  debug_mode_password : Option String
  deriving DecidableEq, Repr

/-- The defaults installed by `_stored.set_default(...)` on a fresh unit. -/
def StoredState.default : StoredState :=
  { debug_mode_started := false
    debug_mode_vscode_command := none
    debug_mode_password := none }

/-- Externally visible side effects issued by the controller. -/
inductive Effect where
  | replace (s : PodSpec)
  | push (path : String) (content : String)
  | exec (argv : List String)
  | stop (service : String)
  deriving DecidableEq, Repr

/-- Errors propagating out of `enable`: the explicit `Exception` raised by
`_setup_debug_mode`, the `AttributeError` hit when a hinted service is not in
the plan, and injected Pebble operation failures. -/
inductive DebugErr where
  | serviceNameRequired
  | serviceNotFound
  | containerOp (op : Effect)
  deriving DecidableEq, Repr

/-- Which fallible container operations of `_setup_debug_mode` fail; Python
exceptions from Pebble are injected through this record. -/
structure FailSpec where
  pushEnvs : Bool
  pushWorkspace : Bool
  pushScript : Bool
  execScript : Bool
  stopService : Bool
  execSymlink : Bool
  deriving DecidableEq, Repr

/-- All container operations succeed. -/
def FailSpec.none : FailSpec :=
  { pushEnvs := false, pushWorkspace := false, pushScript := false
    execScript := false, stopService := false, execSymlink := false }

/-- The whole state `enable`/`disable` read and write: the persisted stored
state, the charm config, the live StatefulSet pod spec, the unit status, the
Pebble plan, plus the construction-time data (hostpaths, container name,
workspace file content) and the external inputs (pod IP, token entropy). -/
structure World where
  stored : StoredState
  config : List (String × String)
  sts : PodSpec
  status : Status
  services : List (String × PebbleService)
  hostpaths : List HostPath
  containerName : String
  vscodeWorkspace : String
  podIp : String
  passwordSeed : Nat
  deriving DecidableEq, Repr

/-- Embeds `config.get(k)` on the charm config. -/
def configGet (cfg : List (String × String)) (k : String) : Option String :=
  (cfg.find? (fun p => p.1 == k)).map (fun p => p.2)

/-- Python truthiness of `config.get(k)` for a string-valued option: present
and non-empty. -/
def configTruthy (cfg : List (String × String)) (k : String) : Bool :=
  match configGet cfg k with
  | some v => !(v == "")
  | none => false

/-- Embeds `DebugMode._hostpaths_to_reconfigure`: the configured hostpaths whose
desired flag (truthy config value) differs from the live state (a volume of
the fetched StatefulSet carries the config key as name). -/
def hostpaths_to_reconfigure (cfg : List (String × String)) (hostpaths : List HostPath)
    (volumes : List Volume) : List HostPath :=
  hostpaths.filter (fun hp =>
    let hostpath_is_set := configTruthy cfg hp.config
    let hostpath_already_configured := volumes.any (fun v => v.name == hp.config)
    hostpath_is_set != hostpath_already_configured)

/-- The `for volume_mount in statefulset_container.volumeMounts: ...
volumeMounts.remove(volume_mount)` loop of `_delete_hostpath_from_statefulset`.
CPython removes the first element equal to the current one and resumes
iteration at the next index, so the element that slides into the freed slot is
never examined; that is the semantics encoded here (the two coincide whenever
no two mounts are equal, which every theorem using this assumes through
`Nodup` hypotheses on mount names). -/
def remove_mounts_loop (cfg : String) : List VolumeMount → List VolumeMount
  | [] => []
  | [m] => if m.name == cfg then [] else [m]
  | m :: w :: rest =>
    if m.name == cfg then w :: remove_mounts_loop cfg rest
    else m :: remove_mounts_loop cfg (w :: rest)

/-- The inner `for statefulset_container in ...containers` loop of
`_delete_hostpath_from_statefulset`: on the workload container(s), run the
volume-mount removal loop. -/
def update_workload_mounts (cfg : String) (containerName : String)
    (cs : List SSContainer) : List SSContainer :=
  cs.map (fun c =>
    if c.name == containerName then
      { c with volumeMounts := remove_mounts_loop cfg c.volumeMounts }
    else c)

/-- The `for volume in statefulset.spec.template.spec.volumes` loop of
`_delete_hostpath_from_statefulset`: for each volume named `cfg`, remove the
matching volume-mounts of the workload container, remove the volume (with the
same removal-during-iteration index semantics as `remove_mounts_loop`), and
set the `hostpath_unmounted` flag. -/
def delete_volumes_loop (cfg : String) (containerName : String) :
    List Volume → List SSContainer → Bool → List Volume × List SSContainer × Bool
  | [], cs, flag => ([], cs, flag)
  | [v], cs, flag =>
    if v.name == cfg then ([], update_workload_mounts cfg containerName cs, true)
    else ([v], cs, flag)
  | v :: w :: rest, cs, flag =>
    if v.name == cfg then
      let r := delete_volumes_loop cfg containerName rest (update_workload_mounts cfg containerName cs) true
      (w :: r.1, r.2.1, r.2.2)
    else
      let r := delete_volumes_loop cfg containerName (w :: rest) cs flag
      (v :: r.1, r.2.1, r.2.2)

/-- Embeds `DebugMode._delete_hostpath_from_statefulset`: returns the mutated pod
spec and the `hostpath_unmounted` flag. -/
def delete_hostpath_from_statefulset (containerName : String) (hp : HostPath)
    (s : PodSpec) : PodSpec × Bool :=
  let r := delete_volumes_loop hp.config containerName s.volumes s.containers false
  ({ volumes := r.1, containers := r.2.1 }, r.2.2)

/-- Embeds `DebugMode._add_hostpath_to_statefulset`: append a host-path volume named
after the config key (source `self.charm.config[hostpath.config]`; every call
site guards on truthiness so the key is present, a missing key is rendered
`""`), and append a matching volume-mount at `hp.mount_path` to the workload
container(s). -/
def add_hostpath_to_statefulset (cfg : List (String × String)) (containerName : String)
    (hp : HostPath) (s : PodSpec) : PodSpec :=
  let volume : Volume :=
    { name := hp.config
      hostPath := some { path := (configGet cfg hp.config).getD "", type := "Directory" } }
  { volumes := s.volumes ++ [volume]
    containers := s.containers.map (fun c =>
      if c.name == containerName then
        { c with volumeMounts :=
            c.volumeMounts ++ [{ name := hp.config, mountPath := hp.mount_path }] }
      else c) }

/-- Embeds `DebugMode._configure_hostpaths`: add or delete each given hostpath on the
fetched spec according to its desired flag; the single `client.replace` of the
result is issued by `enable`. -/
def configure_hostpaths (cfg : List (String × String)) (containerName : String)
    (hostpaths : List HostPath) (s : PodSpec) : PodSpec :=
  hostpaths.foldl (fun acc hp =>
    if configTruthy cfg hp.config then add_hostpath_to_statefulset cfg containerName hp acc
    else (delete_hostpath_from_statefulset containerName hp acc).1) s

/-- Embeds `DebugMode._unmount_hostpaths`: delete every configured hostpath from the
fetched spec, tracking whether anything was removed; the single
`client.replace` (issued only when the flag is set) is rendered by `disable`. -/
def unmount_hostpaths (containerName : String) (hostpaths : List HostPath)
    (s : PodSpec) : PodSpec × Bool :=
  hostpaths.foldl (fun acc hp =>
    let r := delete_hostpath_from_statefulset containerName hp acc.1
    (r.1, acc.2 || r.2)) (s, false)

/-- The serialized environment file `_setup_debug_mode` pushes to
`/debug.envs`. -/
def envFileContent (environment : List (String × String)) : String :=
  String.intercalate "\n"
    (environment.map (fun p => "export " ++ p.1 ++ "=\"" ++ p.2 ++ "\""))

/-- Embeds `_DEBUG_SCRIPT.format(password)`: the bootstrap script pushed to
`/debug.sh` (braces appear as `\x7b`/`\x7d` and apostrophes as `\x27`). -/
def debug_script (password : String) : String :=
  "#!/bin/bash\n# Install SSH\n\n" ++
  "function download_code()\x7b\n    wget https://go.microsoft.com/fwlink/?LinkID=760868 -O code.deb\n\x7d\n\n" ++
  "function setup_envs()\x7b\n    grep \"source /debug.envs\" /root/.bashrc || echo \"source /debug.envs\" | tee -a /root/.bashrc\n\x7d\n" ++
  "function setup_ssh()\x7b\n    apt install ssh -y\n    cat /etc/ssh/sshd_config |\n        grep -E \x27^PermitRootLogin yes$$\x27 || (\n        echo PermitRootLogin yes |\n        tee -a /etc/ssh/sshd_config\n    )\n    service ssh stop\n    sleep 3\n    service ssh start\n    usermod --password $(echo " ++
  password ++
  " | openssl passwd -1 -stdin) root\n\x7d\n\n" ++
  "function setup_code()\x7b\n    apt install libasound2 -y\n    (dpkg -i code.deb || apt-get install -f -y || apt-get install -f -y) && echo Code installed successfully\n    code --install-extension ms-python.python --user-data-dir /root\n    mkdir -p /root/.vscode-server\n    cp -R /root/.vscode/extensions /root/.vscode-server/extensions\n\x7d\n\n" ++
  "export DEBIAN_FRONTEND=noninteractive\napt update && apt install wget -y\ndownload_code &\nsetup_ssh &\nsetup_envs\nwait\nsetup_code &\nwait\n"

/-- The symlink-creation commands `_setup_debug_mode` runs for one mounted
hostpath (per-submodule when submodules are declared, single otherwise). -/
def symlinkEffects (hp : HostPath) : List Effect :=
  if hp.sub_module_dict.length > 0 then
    hp.sub_module_dict.flatMap (fun p =>
      [Effect.exec ["rm", "-rf", p.2.container_path],
       Effect.exec ["ln", "-s", p.2.sub_module_path, p.2.container_path]])
  else
    [Effect.exec ["rm", "-rf", hp.container_path.getD ""],
     Effect.exec ["ln", "-s", hp.mount_path ++ "/" ++ hp.module_name.getD "",
                  hp.container_path.getD ""]]

/-- The straight-line tail of `_setup_debug_mode` after service selection:
push the environment file, the workspace, the bootstrap script; run the
script; stop the service; create the symlinks.  An injected Pebble failure
aborts the sequence at the corresponding operation, returning the effects
issued so far and the raised error. -/
def setup_steps (fail : FailSpec) (service_name : String) (service : PebbleService)
    (password : String) (mounted_hostpaths : List HostPath)
    (vscode_workspace : String) : List Effect × Option DebugErr :=
  let envs := envFileContent service.environment
  if fail.pushEnvs then ([], some (DebugErr.containerOp (Effect.push "/debug.envs" envs))) else
  let t1 := [Effect.push "/debug.envs" envs]
  if fail.pushWorkspace then
    (t1, some (DebugErr.containerOp (Effect.push "/debug.code-workspace" vscode_workspace))) else
  let t2 := t1 ++ [Effect.push "/debug.code-workspace" vscode_workspace]
  if fail.pushScript then
    (t2, some (DebugErr.containerOp (Effect.push "/debug.sh" (debug_script password)))) else
  let t3 := t2 ++ [Effect.push "/debug.sh" (debug_script password)]
  if fail.execScript then (t3, some (DebugErr.containerOp (Effect.exec ["/debug.sh"]))) else
  let t4 := t3 ++ [Effect.exec ["/debug.sh"]]
  if fail.stopService then (t4, some (DebugErr.containerOp (Effect.stop service_name))) else
  let t5 := t4 ++ [Effect.stop service_name]
  let links := mounted_hostpaths.flatMap symlinkEffects
  if fail.execSymlink && !links.isEmpty then
    (t5, some (DebugErr.containerOp (links.headD (Effect.exec [])))) else
  (t5 ++ links, none)

/-- The `not service_name` path of `_setup_debug_mode` service selection:
exactly one Pebble service must be configured (`popitem` then yields it), else
the explicit `Exception` is raised. -/
def setup_select_single (fail : FailSpec) (services : List (String × PebbleService))
    (password : String) (mounted_hostpaths : List HostPath)
    (vscode_workspace : String) : List Effect × Option DebugErr :=
  match services with
  | [p] => setup_steps fail p.1 p.2 password mounted_hostpaths vscode_workspace
  | _ => ([], some DebugErr.serviceNameRequired)

/-- Embeds `DebugMode._setup_debug_mode`.  Service selection mirrors the
source: the guard tests `not service_name`, which is Python truthiness, so an
absent hint and an empty-string hint both take the single-service path
(`setup_select_single`); with a non-empty hint, the service is looked up in
the plan and a missing entry raises (`AttributeError` on
`service.environment`) before any container operation. -/
def setup_debug_mode (fail : FailSpec) (services : List (String × PebbleService))
    (password : String) (service_name : Option String)
    (mounted_hostpaths : List HostPath) (vscode_workspace : String) :
    List Effect × Option DebugErr :=
  match service_name with
  | none => setup_select_single fail services password mounted_hostpaths vscode_workspace
  | some n =>
    if n == "" then
      setup_select_single fail services password mounted_hostpaths vscode_workspace
    else
      match services.find? (fun p => p.1 == n) with
      | some p => setup_steps fail n p.2 password mounted_hostpaths vscode_workspace
      | none => ([], some DebugErr.serviceNotFound)

/-- Embeds `DebugMode._get_vscode_command`. -/
def get_vscode_command (pod_ip : String) (user : String) (workspace_path : String) : String :=
  "code --remote ssh-remote+" ++ user ++ "@" ++ pod_ip ++ " " ++ workspace_path

/-- Result of one `enable` invocation: the state reached (also when an
exception propagates), the side effects issued, and the propagated error. -/
structure EnableResult where
  world : World
  effects : List Effect
  error : Option DebugErr
  deriving DecidableEq, Repr

/-- Embeds `DebugMode.enable`. -/
def enable (fail : FailSpec) (service_name : Option String) (w : World) : EnableResult :=
  let hostpaths_to_reconf := hostpaths_to_reconfigure w.config w.hostpaths w.sts.volumes
  if w.stored.debug_mode_started && hostpaths_to_reconf.isEmpty then
    { world := { w with status := Status.active "debug-mode: ready" }
      effects := [], error := none }
  else if !hostpaths_to_reconf.isEmpty then
    let sts2 := configure_hostpaths w.config w.containerName hostpaths_to_reconf w.sts
    { world := { w with status := Status.maintenance "debug-mode: configuring hostpaths"
                        sts := sts2 }
      effects := [Effect.replace sts2], error := none }
  else
    let w1 := { w with status := Status.maintenance "debug-mode: starting" }
    let password := token_hex 8 w.passwordSeed
    let mounted := w.hostpaths.filter (fun hp => configTruthy w.config hp.config)
    let r := setup_debug_mode fail w.services password service_name mounted w.vscodeWorkspace
    match r.2 with
    | some e => { world := w1, effects := r.1, error := some e }
    | none =>
      { world := { w1 with
          stored :=
            { debug_mode_started := true
              debug_mode_vscode_command :=
                some (get_vscode_command w.podIp "root" "/debug.code-workspace")
              debug_mode_password := some password }
          status := Status.active "debug-mode: ready" }
        effects := r.1, error := none }

/-- Result of one `disable` invocation. -/
structure DisableResult where
  world : World
  effects : List Effect
  deriving DecidableEq, Repr

/-- Embeds `DebugMode.disable`. -/
def disable (w : World) : DisableResult :=
  let current_status := w.status
  let r := unmount_hostpaths w.containerName w.hostpaths w.sts
  let hostpaths_unmounted := r.2
  let w1 := if hostpaths_unmounted then { w with sts := r.1 } else w
  let effs := if hostpaths_unmounted then [Effect.replace r.1] else []
  if !w.stored.debug_mode_started then
    { world := w1, effects := effs }
  else
    let w2 := { w1 with stored :=
      { debug_mode_started := false
        debug_mode_vscode_command := none
        debug_mode_password := none } }
    if !hostpaths_unmounted then
      { world := { w2 with status := current_status }
        effects := effs ++ [Effect.exec ["kill", "-HUP", "1"]] }
    else
      { world := w2, effects := effs }

/-- The persisted-session invariant of the spec:
`started = false` iff command and credential are both absent. -/
def sessionInv (st : StoredState) : Prop :=
  st.debug_mode_started = false ↔
    (st.debug_mode_vscode_command = none ∧ st.debug_mode_password = none)

/-! ### Concrete instances -/

/-- A hostpath spec as in the usage example of the library. -/
def hpApp : HostPath :=
  HostPath.make "app-hostpath" "/usr/lib/python3/dist-packages/app" none

/-- A pod spec with the workload container and no debug-mode volume. -/
def podSpecEmpty : PodSpec :=
  { volumes := [], containers := [{ name := "exporter", volumeMounts := [] }] }

/-- A pod spec with the `app-hostpath` volume and mount in place. -/
def podSpecMounted : PodSpec :=
  { volumes := [{ name := "app-hostpath"
                  hostPath := some { path := "/home/dev/app", type := "Directory" } }]
    containers := [{ name := "exporter"
                     volumeMounts := [{ name := "app-hostpath"
                                        mountPath := "/hostpath/app" }] }] }

/-- A Pebble plan service. -/
def svcExporter : PebbleService := { environment := [("A", "1")] }

/-- A unit with a started debug session and no pending mount delta. -/
def wReady : World :=
  { stored := { debug_mode_started := true
                debug_mode_vscode_command :=
                  some "code --remote ssh-remote+root@1.2.3.4 /debug.code-workspace"
                debug_mode_password := some "0123456789abcdef" }
    config := [("debug-mode", "true"), ("app-hostpath", "/home/dev/app")]
    sts := podSpecMounted
    status := Status.active "debug-mode: ready"
    services := [("exporter", svcExporter)]
    hostpaths := [hpApp]
    containerName := "exporter"
    vscodeWorkspace := "ws"
    podIp := "1.2.3.4"
    passwordSeed := 7 }

/-- A fresh unit: default stored state, nothing configured, nothing mounted. -/
def wFresh : World :=
  { stored := StoredState.default
    config := []
    sts := podSpecEmpty
    status := Status.maintenance "x"
    services := [("exporter", svcExporter)]
    hostpaths := [hpApp]
    containerName := "exporter"
    vscodeWorkspace := "ws"
    podIp := "1.2.3.4"
    passwordSeed := 7 }

/-- A fresh unit whose Pebble plan has no service. -/
def wErr : World := { wFresh with services := [] }

/-- A fresh unit with the hostpath flag set but not yet mounted. -/
def wWant : World := { wFresh with config := [("app-hostpath", "/home/dev/app")] }

/-! ### Lemmas about the removal loops -/

theorem remove_mounts_loop_id (cfg : String) (ms : List VolumeMount)
    (h : ∀ m ∈ ms, ¬ m.name = cfg) : remove_mounts_loop cfg ms = ms := by
  induction ms using remove_mounts_loop.induct cfg with
  | case1 => rfl
  | case2 m hm => simp_all [remove_mounts_loop]
  | case3 m hm => simp_all [remove_mounts_loop]
  | case4 m w rest hm ih => simp_all [remove_mounts_loop]
  | case5 m w rest hm ih => simp_all [remove_mounts_loop]

theorem remove_mounts_loop_sublist (cfg : String) (ms : List VolumeMount) :
    List.Sublist (remove_mounts_loop cfg ms) ms := by
  induction ms using remove_mounts_loop.induct cfg with
  | case1 => simp [remove_mounts_loop]
  | case2 m hm => simp [remove_mounts_loop, hm]
  | case3 m hm => simp [remove_mounts_loop, hm]
  | case4 m w rest hm ih =>
    simp only [remove_mounts_loop, hm, if_pos]
    exact List.Sublist.cons _ (ih.cons₂ _)
  | case5 m w rest hm ih =>
    simp only [remove_mounts_loop, hm, Bool.false_eq_true, if_false]
    exact ih.cons₂ _

theorem remove_mounts_loop_filter_other (cfg target : String) (hne : ¬ target = cfg)
    (ms : List VolumeMount) :
    (remove_mounts_loop cfg ms).filter (fun m => m.name == target)
      = ms.filter (fun m => m.name == target) := by
  induction ms using remove_mounts_loop.induct cfg with
  | case1 => rfl
  | case2 m hm =>
    have hm' : m.name = cfg := by simpa using hm
    have hmt : (m.name == target) = false := by
      rw [hm']; exact beq_eq_false_iff_ne.mpr (fun h => hne h.symm)
    simp [remove_mounts_loop, hm, List.filter_cons, hmt]
  | case3 m hm => simp [remove_mounts_loop, hm]
  | case4 m w rest hm ih =>
    have hm' : m.name = cfg := by simpa using hm
    have hmt : (m.name == target) = false := by
      rw [hm']; exact beq_eq_false_iff_ne.mpr (fun h => hne h.symm)
    simp [remove_mounts_loop, hm, List.filter_cons, hmt, ih]
  | case5 m w rest hm ih =>
    simp [remove_mounts_loop, hm, List.filter_cons, ih]

theorem remove_mounts_loop_nodup_filter (cfg : String) (ms : List VolumeMount)
    (h : (ms.map (fun m => m.name)).Nodup) :
    remove_mounts_loop cfg ms = ms.filter (fun m => !(m.name == cfg)) := by
  induction ms using remove_mounts_loop.induct cfg with
  | case1 => rfl
  | case2 m hm => simp [remove_mounts_loop, hm, List.filter_cons]
  | case3 m hm => simp [remove_mounts_loop, hm, List.filter_cons]
  | case4 m w rest hm ih =>
    have hm' : m.name = cfg := by simpa using hm
    have hnotin : m.name ∉ (w :: rest).map (fun m => m.name) :=
      (List.nodup_cons.mp h).1
    have hw : (w.name == cfg) = false := by
      rcases Bool.eq_false_or_eq_true (w.name == cfg) with h1 | h0
      · exfalso
        apply hnotin
        have hwc : w.name = cfg := by simpa using h1
        rw [hm', ← hwc]
        exact List.mem_map.mpr ⟨w, List.mem_cons_self _ _, rfl⟩
      · exact h0
    have hrest : ∀ x ∈ rest, ¬ x.name = cfg := by
      intro x hx hxc
      apply hnotin
      rw [hm', ← hxc]
      exact List.mem_map.mpr ⟨x, List.mem_cons_of_mem _ hx, rfl⟩
    have hid : remove_mounts_loop cfg rest = rest :=
      remove_mounts_loop_id cfg rest hrest
    have hfil : rest.filter (fun m => !(m.name == cfg)) = rest :=
      List.filter_eq_self.mpr
        (fun x hx => by simpa using hrest x hx)
    simp [remove_mounts_loop, hm, List.filter_cons, hm', hw, hid, hfil]
  | case5 m w rest hm ih =>
    have h' : ((w :: rest).map (fun m => m.name)).Nodup := (List.nodup_cons.mp h).2
    simp [remove_mounts_loop, hm, List.filter_cons, ih h']

theorem update_workload_mounts_pres (cfg cn : String) (P : SSContainer → Prop)
    (hP : ∀ c, P c → P { c with volumeMounts := remove_mounts_loop cfg c.volumeMounts })
    (cs : List SSContainer) (h : ∀ c ∈ cs, P c) :
    ∀ c ∈ update_workload_mounts cfg cn cs, P c := by
  intro c hc
  rw [update_workload_mounts] at hc
  obtain ⟨c0, hc0, hfc⟩ := List.mem_map.mp hc
  subst hfc
  by_cases hname : (c0.name == cn) = true
  · rw [if_pos hname]
    exact hP c0 (h c0 hc0)
  · rw [if_neg hname]
    exact h c0 hc0

theorem update_workload_mounts_removed (cfg cn : String) (cs : List SSContainer)
    (hnodupm : ∀ c ∈ cs, c.name = cn → ((c.volumeMounts.map (fun m => m.name)).Nodup)) :
    ∀ c ∈ update_workload_mounts cfg cn cs, c.name = cn →
      ∀ m ∈ c.volumeMounts, ¬ m.name = cfg := by
  intro c hc hn
  rw [update_workload_mounts] at hc
  obtain ⟨c0, hc0, hfc⟩ := List.mem_map.mp hc
  subst hfc
  by_cases hname : (c0.name == cn) = true
  · rw [if_pos hname] at hn ⊢
    intro m hm
    rw [remove_mounts_loop_nodup_filter cfg _ (hnodupm c0 hc0 hn)] at hm
    have := (List.mem_filter.mp hm).2
    simpa using this
  · rw [if_neg hname] at hn
    exact absurd (beq_iff_eq.mpr hn) hname

theorem delete_volumes_loop_no_match (cfg cn : String) (vols : List Volume)
    (cs : List SSContainer) (flag : Bool) (h : ∀ v ∈ vols, ¬ v.name = cfg) :
    delete_volumes_loop cfg cn vols cs flag = (vols, cs, flag) := by
  induction vols, cs, flag using delete_volumes_loop.induct cfg cn with
  | case1 cs flag => rfl
  | case2 v cs flag hv => simp_all [delete_volumes_loop]
  | case3 v cs flag hv => simp_all [delete_volumes_loop]
  | case4 v w rest cs flag hv ih => simp_all [delete_volumes_loop]
  | case5 v w rest cs flag hv ih => simp_all [delete_volumes_loop]

theorem delete_volumes_loop_sublist (cfg cn : String) (vols : List Volume)
    (cs : List SSContainer) (flag : Bool) :
    List.Sublist (delete_volumes_loop cfg cn vols cs flag).1 vols := by
  induction vols, cs, flag using delete_volumes_loop.induct cfg cn with
  | case1 cs flag => simp [delete_volumes_loop]
  | case2 v cs flag hv => simp [delete_volumes_loop, hv]
  | case3 v cs flag hv => simp [delete_volumes_loop, hv]
  | case4 v w rest cs flag hv ih =>
    simp only [delete_volumes_loop, hv, if_pos]
    exact List.Sublist.cons _ (ih.cons₂ _)
  | case5 v w rest cs flag hv ih =>
    simp only [delete_volumes_loop, hv, Bool.false_eq_true, if_false]
    exact ih.cons₂ _

theorem delete_volumes_loop_filter_other (cfg cn target : String)
    (hne : ¬ target = cfg) (vols : List Volume) (cs : List SSContainer) (flag : Bool) :
    ((delete_volumes_loop cfg cn vols cs flag).1).filter (fun v => v.name == target)
      = vols.filter (fun v => v.name == target) := by
  induction vols, cs, flag using delete_volumes_loop.induct cfg cn with
  | case1 cs flag => rfl
  | case2 v cs flag hv =>
    have hv' : v.name = cfg := by simpa using hv
    have hvt : (v.name == target) = false := by
      rw [hv']; exact beq_eq_false_iff_ne.mpr (fun h => hne h.symm)
    simp [delete_volumes_loop, hv, List.filter_cons, hvt]
  | case3 v cs flag hv => simp [delete_volumes_loop, hv]
  | case4 v w rest cs flag hv ih =>
    have hv' : v.name = cfg := by simpa using hv
    have hvt : (v.name == target) = false := by
      rw [hv']; exact beq_eq_false_iff_ne.mpr (fun h => hne h.symm)
    simp [delete_volumes_loop, hv, List.filter_cons, hvt, ih]
  | case5 v w rest cs flag hv ih =>
    simp [delete_volumes_loop, hv, List.filter_cons, ih]

theorem delete_volumes_loop_flag (cfg cn : String) (vols : List Volume)
    (cs : List SSContainer) (flag : Bool) :
    (delete_volumes_loop cfg cn vols cs flag).2.2
      = (flag || vols.any (fun v => v.name == cfg)) := by
  induction vols, cs, flag using delete_volumes_loop.induct cfg cn with
  | case1 cs flag => simp [delete_volumes_loop]
  | case2 v cs flag hv => simp [delete_volumes_loop, hv]
  | case3 v cs flag hv => simp [delete_volumes_loop, hv]
  | case4 v w rest cs flag hv ih => simp [delete_volumes_loop, hv, ih]
  | case5 v w rest cs flag hv ih => simp [delete_volumes_loop, hv, ih]

theorem delete_volumes_loop_nodup_filter (cfg cn : String) (vols : List Volume)
    (cs : List SSContainer) (flag : Bool)
    (h : (vols.map (fun v => v.name)).Nodup) :
    (delete_volumes_loop cfg cn vols cs flag).1
      = vols.filter (fun v => !(v.name == cfg)) := by
  induction vols, cs, flag using delete_volumes_loop.induct cfg cn with
  | case1 cs flag => rfl
  | case2 v cs flag hv => simp [delete_volumes_loop, hv, List.filter_cons]
  | case3 v cs flag hv => simp [delete_volumes_loop, hv, List.filter_cons]
  | case4 v w rest cs flag hv ih =>
    have hv' : v.name = cfg := by simpa using hv
    have hnotin : v.name ∉ (w :: rest).map (fun v => v.name) :=
      (List.nodup_cons.mp h).1
    have hw : (w.name == cfg) = false := by
      rcases Bool.eq_false_or_eq_true (w.name == cfg) with h1 | h0
      · exfalso
        apply hnotin
        have hwc : w.name = cfg := by simpa using h1
        rw [hv', ← hwc]
        exact List.mem_map.mpr ⟨w, List.mem_cons_self _ _, rfl⟩
      · exact h0
    have hrest : ∀ x ∈ rest, ¬ x.name = cfg := by
      intro x hx hxc
      apply hnotin
      rw [hv', ← hxc]
      exact List.mem_map.mpr ⟨x, List.mem_cons_of_mem _ hx, rfl⟩
    have hid := delete_volumes_loop_no_match cfg cn rest
      (update_workload_mounts cfg cn cs) true hrest
    have hfil : rest.filter (fun v => !(v.name == cfg)) = rest :=
      List.filter_eq_self.mpr (fun x hx => by simpa using hrest x hx)
    simp [delete_volumes_loop, hv, List.filter_cons, hv', hw, hid, hfil]
  | case5 v w rest cs flag hv ih =>
    have h' : ((w :: rest).map (fun v => v.name)).Nodup := (List.nodup_cons.mp h).2
    simp [delete_volumes_loop, hv, List.filter_cons, ih h']

theorem delete_volumes_loop_containers_pres (cfg cn : String) (P : SSContainer → Prop)
    (hP : ∀ c, P c → P { c with volumeMounts := remove_mounts_loop cfg c.volumeMounts })
    (vols : List Volume) (cs : List SSContainer) (flag : Bool)
    (h : ∀ c ∈ cs, P c) :
    ∀ c ∈ (delete_volumes_loop cfg cn vols cs flag).2.1, P c := by
  induction vols, cs, flag using delete_volumes_loop.induct cfg cn with
  | case1 cs flag => simpa [delete_volumes_loop] using h
  | case2 v cs flag hv =>
    simp only [delete_volumes_loop, hv, if_pos]
    exact update_workload_mounts_pres cfg cn P hP cs h
  | case3 v cs flag hv => simpa [delete_volumes_loop, hv] using h
  | case4 v w rest cs flag hv ih =>
    simp only [delete_volumes_loop, hv, if_pos]
    exact ih (update_workload_mounts_pres cfg cn P hP cs h)
  | case5 v w rest cs flag hv ih =>
    simp only [delete_volumes_loop, hv, Bool.false_eq_true, if_false]
    exact ih h

theorem delete_volumes_loop_mounts_removed (cfg cn : String) (vols : List Volume)
    (cs : List SSContainer) (flag : Bool)
    (hmatch : ∃ v ∈ vols, v.name = cfg)
    (hnodupm : ∀ c ∈ cs, c.name = cn → ((c.volumeMounts.map (fun m => m.name)).Nodup)) :
    ∀ c ∈ (delete_volumes_loop cfg cn vols cs flag).2.1, c.name = cn →
      ∀ m ∈ c.volumeMounts, ¬ m.name = cfg := by
  induction vols, cs, flag using delete_volumes_loop.induct cfg cn with
  | case1 cs flag => simp at hmatch
  | case2 v cs flag hv =>
    simp only [delete_volumes_loop, hv, if_pos]
    exact update_workload_mounts_removed cfg cn cs hnodupm
  | case3 v cs flag hv =>
    exfalso
    obtain ⟨x, hx, hxc⟩ := hmatch
    have : x = v := by simpa using hx
    subst this
    simp [hxc] at hv
  | case4 v w rest cs flag hv ih =>
    simp only [delete_volumes_loop, hv, if_pos]
    refine delete_volumes_loop_containers_pres cfg cn _ ?_ rest
      (update_workload_mounts cfg cn cs) true
      (update_workload_mounts_removed cfg cn cs hnodupm)
    intro c hc hn m hm
    exact hc hn m ((remove_mounts_loop_sublist cfg c.volumeMounts).subset hm)
  | case5 v w rest cs flag hv ih =>
    simp only [delete_volumes_loop, hv, Bool.false_eq_true, if_false]
    refine ih ?_ hnodupm
    obtain ⟨x, hx, hxc⟩ := hmatch
    rcases List.mem_cons.mp hx with h1 | h2
    · exfalso
      subst h1
      simp [hxc] at hv
    · exact ⟨x, h2, hxc⟩

/-! ### The `_unmount_hostpaths` fold, restated structurally -/

/-- The pod spec reached by the `_unmount_hostpaths` fold. -/
def unmount_sts (cn : String) : List HostPath → PodSpec → PodSpec
  | [], s => s
  | hp :: t, s => unmount_sts cn t (delete_hostpath_from_statefulset cn hp s).1

/-- The `hostpath_unmounted` flag computed by the `_unmount_hostpaths` fold. -/
def unmount_flag (cn : String) : List HostPath → PodSpec → Bool
  | [], _ => false
  | hp :: t, s =>
    (delete_hostpath_from_statefulset cn hp s).2
      || unmount_flag cn t (delete_hostpath_from_statefulset cn hp s).1

theorem unmount_hostpaths_aux (cn : String) (l : List HostPath) (s : PodSpec) (b : Bool) :
    l.foldl (fun acc hp =>
        let r := delete_hostpath_from_statefulset cn hp acc.1
        (r.1, acc.2 || r.2)) (s, b)
      = (unmount_sts cn l s, b || unmount_flag cn l s) := by
  induction l generalizing s b with
  | nil => simp [unmount_sts, unmount_flag]
  | cons hp t ih => simp [unmount_sts, unmount_flag, List.foldl_cons, ih, Bool.or_assoc]

theorem unmount_hostpaths_eq (cn : String) (l : List HostPath) (s : PodSpec) :
    unmount_hostpaths cn l s = (unmount_sts cn l s, unmount_flag cn l s) := by
  simpa [unmount_hostpaths] using unmount_hostpaths_aux cn l s false

theorem delete_hostpath_volumes_sublist (cn : String) (hp : HostPath) (s : PodSpec) :
    List.Sublist (delete_hostpath_from_statefulset cn hp s).1.volumes s.volumes :=
  delete_volumes_loop_sublist hp.config cn s.volumes s.containers false

theorem unmount_sts_volumes_pres (cn x : String) (l : List HostPath) (s : PodSpec)
    (h : ∀ v ∈ s.volumes, ¬ v.name = x) :
    ∀ v ∈ (unmount_sts cn l s).volumes, ¬ v.name = x := by
  induction l generalizing s with
  | nil => simpa [unmount_sts] using h
  | cons hp t ih =>
    rw [unmount_sts]
    exact ih _ (fun v hv => h v ((delete_hostpath_volumes_sublist cn hp s).subset hv))

theorem unmount_sts_mounts_pres (cn x : String) (l : List HostPath) (s : PodSpec)
    (h : ∀ c ∈ s.containers, c.name = cn → ∀ m ∈ c.volumeMounts, ¬ m.name = x) :
    ∀ c ∈ (unmount_sts cn l s).containers, c.name = cn →
      ∀ m ∈ c.volumeMounts, ¬ m.name = x := by
  induction l generalizing s with
  | nil => simpa [unmount_sts] using h
  | cons hp t ih =>
    rw [unmount_sts]
    refine ih _ ?_
    refine delete_volumes_loop_containers_pres hp.config cn _ ?_ _ _ _ h
    intro c hc hn m hm
    exact hc hn m ((remove_mounts_loop_sublist hp.config c.volumeMounts).subset hm)

theorem unmount_sts_nodup_volumes (cn : String) (l : List HostPath) (s : PodSpec)
    (h : (s.volumes.map (fun v => v.name)).Nodup) :
    ((unmount_sts cn l s).volumes.map (fun v => v.name)).Nodup := by
  induction l generalizing s with
  | nil => simpa [unmount_sts] using h
  | cons hp t ih =>
    rw [unmount_sts]
    exact ih _ (List.Nodup.sublist
      ((delete_hostpath_volumes_sublist cn hp s).map (fun v => v.name)) h)

theorem unmount_sts_nodup_mounts (cn : String) (l : List HostPath) (s : PodSpec)
    (h : ∀ c ∈ s.containers, c.name = cn → ((c.volumeMounts.map (fun m => m.name)).Nodup)) :
    ∀ c ∈ (unmount_sts cn l s).containers, c.name = cn →
      ((c.volumeMounts.map (fun m => m.name)).Nodup) := by
  induction l generalizing s with
  | nil => simpa [unmount_sts] using h
  | cons hp t ih =>
    rw [unmount_sts]
    refine ih _ ?_
    refine delete_volumes_loop_containers_pres hp.config cn _ ?_ _ _ _ h
    intro c hc hn
    exact List.Nodup.sublist
      ((remove_mounts_loop_sublist hp.config c.volumeMounts).map (fun m => m.name)) (hc hn)

theorem any_eq_of_filter_eq {α : Type} (p : α → Bool) {l₁ l₂ : List α}
    (h : l₁.filter p = l₂.filter p) : l₁.any p = l₂.any p := by
  have key : ∀ l : List α, (l.any p = true ↔ (l.filter p) ≠ []) := by
    intro l
    rw [List.any_eq_true]
    constructor
    · rintro ⟨x, hx, hp⟩ hemp
      have hmem : x ∈ l.filter p := List.mem_filter.mpr ⟨hx, hp⟩
      rw [hemp] at hmem
      cases hmem
    · intro hne
      obtain ⟨x, hx⟩ := List.exists_mem_of_ne_nil _ hne
      exact ⟨x, (List.mem_filter.mp hx).1, (List.mem_filter.mp hx).2⟩
  rw [Bool.eq_iff_iff, key l₁, key l₂, h]

theorem delete_volumes_loop_any_other (cfg cn target : String) (hne : ¬ target = cfg)
    (vols : List Volume) (cs : List SSContainer) (flag : Bool) :
    ((delete_volumes_loop cfg cn vols cs flag).1).any (fun v => v.name == target)
      = vols.any (fun v => v.name == target) :=
  any_eq_of_filter_eq _ (delete_volumes_loop_filter_other cfg cn target hne vols cs flag)

theorem unmount_sts_removes_volumes (cn : String) (l : List HostPath) (s : PodSpec)
    (hnodup : (s.volumes.map (fun v => v.name)).Nodup) :
    ∀ hp ∈ l, ∀ v ∈ (unmount_sts cn l s).volumes, ¬ v.name = hp.config := by
  induction l generalizing s with
  | nil => intro hp h; cases h
  | cons h0 t ih =>
    intro hp hhp
    rcases List.mem_cons.mp hhp with heq | hmem
    · subst heq
      rw [unmount_sts]
      refine unmount_sts_volumes_pres cn hp.config t _ ?_
      intro v hv
      rw [delete_hostpath_from_statefulset] at hv
      simp only at hv
      rw [delete_volumes_loop_nodup_filter hp.config cn s.volumes s.containers false hnodup] at hv
      simpa using (List.mem_filter.mp hv).2
    · rw [unmount_sts]
      refine ih _ ?_ hp hmem
      exact List.Nodup.sublist
        ((delete_hostpath_volumes_sublist cn h0 s).map (fun v => v.name)) hnodup

theorem unmount_sts_removes_mounts (cn : String) (l : List HostPath) (s : PodSpec)
    (hnodupv : (s.volumes.map (fun v => v.name)).Nodup)
    (hnodupm : ∀ c ∈ s.containers, c.name = cn → ((c.volumeMounts.map (fun m => m.name)).Nodup)) :
    ∀ hp ∈ l, s.volumes.any (fun v => v.name == hp.config) = true →
      ∀ c ∈ (unmount_sts cn l s).containers, c.name = cn →
        ∀ m ∈ c.volumeMounts, ¬ m.name = hp.config := by
  induction l generalizing s with
  | nil => intro hp h; cases h
  | cons h0 t ih =>
    intro hp hhp hany
    rcases List.mem_cons.mp hhp with heq | hmem
    · subst heq
      rw [unmount_sts]
      refine unmount_sts_mounts_pres cn hp.config t _ ?_
      have hex : ∃ v ∈ s.volumes, v.name = hp.config := by
        obtain ⟨v, hv, hvp⟩ := List.any_eq_true.mp hany
        exact ⟨v, hv, by simpa using hvp⟩
      exact delete_volumes_loop_mounts_removed hp.config cn s.volumes s.containers false
        hex hnodupm
    · by_cases hcfg : hp.config = h0.config
      · rw [unmount_sts]
        refine unmount_sts_mounts_pres cn hp.config t _ ?_
        have hex : ∃ v ∈ s.volumes, v.name = h0.config := by
          obtain ⟨v, hv, hvp⟩ := List.any_eq_true.mp hany
          exact ⟨v, hv, by rw [← hcfg]; simpa using hvp⟩
        have := delete_volumes_loop_mounts_removed h0.config cn s.volumes s.containers false
          hex hnodupm
        rw [hcfg]
        exact this
      · rw [unmount_sts]
        refine ih _ ?_ ?_ hp hmem ?_
        · exact List.Nodup.sublist
            ((delete_hostpath_volumes_sublist cn h0 s).map (fun v => v.name)) hnodupv
        · refine delete_volumes_loop_containers_pres h0.config cn _ ?_ _ _ _ hnodupm
          intro c hc hn
          exact List.Nodup.sublist
            ((remove_mounts_loop_sublist h0.config c.volumeMounts).map (fun m => m.name)) (hc hn)
        · rw [delete_hostpath_from_statefulset]
          simp only
          rw [delete_volumes_loop_any_other h0.config cn hp.config hcfg s.volumes s.containers false]
          exact hany

theorem unmount_flag_true (cn : String) (l : List HostPath) (s : PodSpec)
    (h : ∃ hp ∈ l, s.volumes.any (fun v => v.name == hp.config) = true) :
    unmount_flag cn l s = true := by
  induction l generalizing s with
  | nil => obtain ⟨hp, hhp, _⟩ := h; cases hhp
  | cons h0 t ih =>
    obtain ⟨hp, hhp, hany⟩ := h
    rw [unmount_flag]
    rcases List.mem_cons.mp hhp with heq | hmem
    · subst heq
      have : (delete_hostpath_from_statefulset cn hp s).2 = true := by
        rw [delete_hostpath_from_statefulset]
        simp only
        rw [delete_volumes_loop_flag]
        simp [hany]
      simp [this]
    · by_cases hcfg : hp.config = h0.config
      · have : (delete_hostpath_from_statefulset cn h0 s).2 = true := by
          rw [delete_hostpath_from_statefulset]
          simp only
          rw [delete_volumes_loop_flag]
          rw [← hcfg]
          simp [hany]
        simp [this]
      · have : unmount_flag cn t (delete_hostpath_from_statefulset cn h0 s).1 = true := by
          refine ih _ ⟨hp, hmem, ?_⟩
          rw [delete_hostpath_from_statefulset]
          simp only
          rw [delete_volumes_loop_any_other h0.config cn hp.config hcfg s.volumes s.containers false]
          exact hany
        simp [this]

theorem unmount_no_match (cn : String) (l : List HostPath) (s : PodSpec)
    (h : ∀ hp ∈ l, ∀ v ∈ s.volumes, ¬ v.name = hp.config) :
    unmount_sts cn l s = s ∧ unmount_flag cn l s = false := by
  induction l with
  | nil => exact ⟨rfl, rfl⟩
  | cons h0 t ih =>
    have hdel : delete_hostpath_from_statefulset cn h0 s = ({ volumes := s.volumes, containers := s.containers }, false) := by
      rw [delete_hostpath_from_statefulset]
      rw [delete_volumes_loop_no_match h0.config cn s.volumes s.containers false
        (h h0 (List.mem_cons_self _ _))]
    have hs : ({ volumes := s.volumes, containers := s.containers } : PodSpec) = s := rfl
    rw [unmount_sts, unmount_flag, hdel]
    simp only [hs]
    have := ih (fun hp hhp => h hp (List.mem_cons_of_mem _ hhp))
    exact ⟨this.1, by simp [this.2]⟩

/-! ### The `_configure_hostpaths` fold -/

theorem mem_hostpaths_to_reconfigure (cfg : List (String × String))
    (hostpaths : List HostPath) (volumes : List Volume) (hp : HostPath) :
    hp ∈ hostpaths_to_reconfigure cfg hostpaths volumes ↔
      hp ∈ hostpaths ∧
        configTruthy cfg hp.config ≠ volumes.any (fun v => v.name == hp.config) := by
  rw [hostpaths_to_reconfigure]
  simp only [List.mem_filter, bne_iff_ne, ne_eq]

theorem configure_hostpaths_cons (cfg : List (String × String)) (cn : String)
    (hp : HostPath) (t : List HostPath) (s : PodSpec) :
    configure_hostpaths cfg cn (hp :: t) s
      = configure_hostpaths cfg cn t
          (if configTruthy cfg hp.config then add_hostpath_to_statefulset cfg cn hp s
           else (delete_hostpath_from_statefulset cn hp s).1) := rfl

theorem configure_hostpaths_append (cfg : List (String × String)) (cn : String)
    (l₁ l₂ : List HostPath) (s : PodSpec) :
    configure_hostpaths cfg cn (l₁ ++ l₂) s
      = configure_hostpaths cfg cn l₂ (configure_hostpaths cfg cn l₁ s) := by
  rw [configure_hostpaths, configure_hostpaths, configure_hostpaths, List.foldl_append]

theorem add_containers_pres (cfg : List (String × String)) (cn : String)
    (hp : HostPath) (P : SSContainer → Prop)
    (hP : ∀ c, P c → P { c with volumeMounts :=
        c.volumeMounts ++ [{ name := hp.config, mountPath := hp.mount_path }] })
    (s : PodSpec) (h : ∀ c ∈ s.containers, P c) :
    ∀ c ∈ (add_hostpath_to_statefulset cfg cn hp s).containers, P c := by
  intro c hc
  rw [add_hostpath_to_statefulset] at hc
  simp only at hc
  obtain ⟨c0, hc0, hfc⟩ := List.mem_map.mp hc
  subst hfc
  by_cases hname : (c0.name == cn) = true
  · rw [if_pos hname]
    exact hP c0 (h c0 hc0)
  · rw [if_neg hname]
    exact h c0 hc0

theorem configure_fold_pres (cfg : List (String × String)) (cn target : String)
    (KV : List Volume) (K : List VolumeMount) (l : List HostPath)
    (hl : ∀ hp' ∈ l, ¬ hp'.config = target) (s : PodSpec)
    (hv : s.volumes.filter (fun v => v.name == target) = KV)
    (hm : ∀ c ∈ s.containers, c.name = cn →
        c.volumeMounts.filter (fun m => m.name == target) = K) :
    (configure_hostpaths cfg cn l s).volumes.filter (fun v => v.name == target) = KV ∧
      ∀ c ∈ (configure_hostpaths cfg cn l s).containers, c.name = cn →
        c.volumeMounts.filter (fun m => m.name == target) = K := by
  induction l generalizing s with
  | nil => exact ⟨hv, hm⟩
  | cons hp' t ih =>
    rw [configure_hostpaths_cons]
    have hne : ¬ hp'.config = target := hl hp' (List.mem_cons_self _ _)
    have hbeq : (hp'.config == target) = false := beq_eq_false_iff_ne.mpr hne
    by_cases htr : configTruthy cfg hp'.config = true
    · rw [if_pos htr]
      refine ih (fun x hx => hl x (List.mem_cons_of_mem _ hx)) _ ?_ ?_
      · rw [add_hostpath_to_statefulset]
        simp only
        rw [List.filter_append, hv]
        simp [List.filter_cons, hbeq]
      · refine add_containers_pres cfg cn hp' _ ?_ _ hm
        intro c hc hn
        simp only at hn ⊢
        rw [List.filter_append, hc hn]
        simp [List.filter_cons, hbeq]
    · rw [if_neg htr]
      refine ih (fun x hx => hl x (List.mem_cons_of_mem _ hx)) _ ?_ ?_
      · rw [delete_hostpath_from_statefulset]
        simp only
        rw [delete_volumes_loop_filter_other hp'.config cn target
          (fun h => hne h.symm) s.volumes s.containers false]
        exact hv
      · rw [delete_hostpath_from_statefulset]
        simp only
        refine delete_volumes_loop_containers_pres hp'.config cn _ ?_ _ _ _ hm
        intro c hc hn
        simp only at hn ⊢
        rw [remove_mounts_loop_filter_other hp'.config target
          (fun h => hne h.symm) c.volumeMounts]
        exact hc hn

theorem add_hostpath_establishes (cfg : List (String × String)) (cn : String)
    (hp : HostPath) (s : PodSpec)
    (hv : s.volumes.filter (fun v => v.name == hp.config) = [])
    (hm : ∀ c ∈ s.containers, c.name = cn →
        c.volumeMounts.filter (fun m => m.name == hp.config) = []) :
    (add_hostpath_to_statefulset cfg cn hp s).volumes.filter
        (fun v => v.name == hp.config)
      = [{ name := hp.config
           hostPath := some { path := (configGet cfg hp.config).getD ""
                              type := "Directory" } }] ∧
      ∀ c ∈ (add_hostpath_to_statefulset cfg cn hp s).containers, c.name = cn →
        c.volumeMounts.filter (fun m => m.name == hp.config)
          = [{ name := hp.config, mountPath := hp.mount_path }] := by
  constructor
  · rw [add_hostpath_to_statefulset]
    simp only
    rw [List.filter_append, hv]
    simp [List.filter_cons]
  · intro c hc hn
    rw [add_hostpath_to_statefulset] at hc
    simp only at hc
    obtain ⟨c0, hc0, hfc⟩ := List.mem_map.mp hc
    subst hfc
    by_cases hname : (c0.name == cn) = true
    · rw [if_pos hname] at hn ⊢
      simp only
      rw [List.filter_append, hm c0 hc0 (by simpa using hname)]
      simp [List.filter_cons]
    · rw [if_neg hname] at hn
      exact absurd (beq_iff_eq.mpr hn) hname

/-! ### `secrets.token_hex` facts -/

theorem tokenHexChars_length (k : Nat) : ∀ s : Nat, (tokenHexChars k s).length = k := by
  induction k with
  | zero => intro s; rfl
  | succ n ih => intro s; simp [tokenHexChars, ih]

theorem hexDigitChar_hex (n : Nat) (h : n < 16) : isHexChar (hexDigitChar n) = true := by
  interval_cases n <;> decide

theorem tokenHexChars_hex (k : Nat) :
    ∀ s : Nat, ∀ c ∈ tokenHexChars k s, isHexChar c = true := by
  induction k with
  | zero => intro s c hc; cases hc
  | succ n ih =>
    intro s c hc
    rcases List.mem_cons.mp hc with h1 | h2
    · subst h1
      exact hexDigitChar_hex _ (Nat.mod_lt _ (by decide))
    · exact ih _ c h2

theorem token_hex_length (nbytes seed : Nat) :
    (token_hex nbytes seed).length = 2 * nbytes := by
  rw [token_hex]
  simp [String.length, tokenHexChars_length]

theorem token_hex_is_hex (nbytes seed : Nat) :
    ∀ c ∈ (token_hex nbytes seed).toList, isHexChar c = true := by
  rw [token_hex]
  intro c hc
  exact tokenHexChars_hex _ _ c (by simpa [String.toList] using hc)

/-! ### `_setup_debug_mode` facts -/

theorem setup_steps_error_containerOp (fail : FailSpec) (sn : String)
    (svc : PebbleService) (pw : String) (mounted : List HostPath) (ws : String)
    (e : DebugErr) (he : (setup_steps fail sn svc pw mounted ws).2 = some e) :
    ∃ op, e = DebugErr.containerOp op := by
  rw [setup_steps] at he
  repeat' split at he
  all_goals dsimp only at he
  all_goals repeat' split at he
  all_goals try exact ⟨_, (Option.some.inj he).symm⟩
  all_goals exact Option.noConfusion he

theorem setup_steps_success (fail : FailSpec) (sn : String) (svc : PebbleService)
    (pw : String) (mounted : List HostPath) (ws : String)
    (h : (setup_steps fail sn svc pw mounted ws).2 = none) :
    (setup_steps fail sn svc pw mounted ws).1
      = [Effect.push "/debug.envs" (envFileContent svc.environment),
         Effect.push "/debug.code-workspace" ws,
         Effect.push "/debug.sh" (debug_script pw),
         Effect.exec ["/debug.sh"],
         Effect.stop sn] ++ mounted.flatMap symlinkEffects := by
  rw [setup_steps] at h ⊢
  repeat' split at h
  all_goals dsimp only at h ⊢
  all_goals repeat' split at h
  all_goals try exact Option.noConfusion h
  all_goals simp [*]

theorem setup_select_single_singleton (fail : FailSpec) (p : String × PebbleService)
    (pw : String) (mounted : List HostPath) (ws : String) :
    setup_select_single fail [p] pw mounted ws
      = setup_steps fail p.1 p.2 pw mounted ws := rfl

theorem setup_debug_mode_none_eq (fail : FailSpec)
    (services : List (String × PebbleService)) (pw : String)
    (mounted : List HostPath) (ws : String) :
    setup_debug_mode fail services pw none mounted ws
      = setup_select_single fail services pw mounted ws := rfl

theorem setup_debug_mode_empty_hint (fail : FailSpec)
    (services : List (String × PebbleService)) (pw : String)
    (mounted : List HostPath) (ws : String) :
    setup_debug_mode fail services pw (some "") mounted ws
      = setup_select_single fail services pw mounted ws := rfl

theorem setup_debug_mode_some_hint (fail : FailSpec)
    (services : List (String × PebbleService)) (pw : String) (n : String)
    (mounted : List HostPath) (ws : String) (hn : ¬ n = "") :
    setup_debug_mode fail services pw (some n) mounted ws
      = match services.find? (fun p => p.1 == n) with
        | some p => setup_steps fail n p.2 pw mounted ws
        | none => ([], some DebugErr.serviceNotFound) := by
  have hb : (n == "") = false := beq_eq_false_iff_ne.mpr hn
  simp only [setup_debug_mode, hb, Bool.false_eq_true, if_false]

theorem setup_select_single_success_effects (fail : FailSpec)
    (services : List (String × PebbleService)) (pw : String)
    (mounted : List HostPath) (ws : String)
    (h : (setup_select_single fail services pw mounted ws).2 = none) :
    Effect.push "/debug.code-workspace" ws
        ∈ (setup_select_single fail services pw mounted ws).1 ∧
      Effect.push "/debug.sh" (debug_script pw)
        ∈ (setup_select_single fail services pw mounted ws).1 ∧
      Effect.exec ["/debug.sh"]
        ∈ (setup_select_single fail services pw mounted ws).1 ∧
      (∃ env, Effect.push "/debug.envs" env
        ∈ (setup_select_single fail services pw mounted ws).1) ∧
      (∃ sn, Effect.stop sn
        ∈ (setup_select_single fail services pw mounted ws).1) := by
  rcases services with _ | ⟨p, _ | ⟨q, t⟩⟩
  · exact Option.noConfusion h
  · rw [setup_select_single_singleton] at h ⊢
    rw [setup_steps_success fail p.1 p.2 pw mounted ws h]
    exact ⟨by simp, by simp, by simp, ⟨envFileContent p.2.environment, by simp⟩,
      ⟨p.1, by simp⟩⟩
  · exact Option.noConfusion h

theorem setup_debug_mode_success_effects (fail : FailSpec)
    (services : List (String × PebbleService)) (pw : String) (hint : Option String)
    (mounted : List HostPath) (ws : String)
    (h : (setup_debug_mode fail services pw hint mounted ws).2 = none) :
    Effect.push "/debug.code-workspace" ws
        ∈ (setup_debug_mode fail services pw hint mounted ws).1 ∧
      Effect.push "/debug.sh" (debug_script pw)
        ∈ (setup_debug_mode fail services pw hint mounted ws).1 ∧
      Effect.exec ["/debug.sh"] ∈ (setup_debug_mode fail services pw hint mounted ws).1 ∧
      (∃ env, Effect.push "/debug.envs" env
        ∈ (setup_debug_mode fail services pw hint mounted ws).1) ∧
      (∃ sn, Effect.stop sn ∈ (setup_debug_mode fail services pw hint mounted ws).1) := by
  cases hint with
  | none =>
    rw [setup_debug_mode_none_eq] at h ⊢
    exact setup_select_single_success_effects fail services pw mounted ws h
  | some n =>
    by_cases hn : n = ""
    · subst hn
      rw [setup_debug_mode_empty_hint] at h ⊢
      exact setup_select_single_success_effects fail services pw mounted ws h
    · rw [setup_debug_mode_some_hint fail services pw n mounted ws hn] at h ⊢
      cases hfind : services.find? (fun p => p.1 == n) with
      | some p =>
        simp only [hfind] at h ⊢
        rw [setup_steps_success fail n p.2 pw mounted ws h]
        exact ⟨by simp, by simp, by simp, ⟨envFileContent p.2.environment, by simp⟩,
          ⟨n, by simp⟩⟩
      | none =>
        simp only [hfind] at h
        exact Option.noConfusion h

theorem setup_select_single_requires_iff (fail : FailSpec)
    (services : List (String × PebbleService)) (pw : String)
    (mounted : List HostPath) (ws : String) :
    (setup_select_single fail services pw mounted ws).2
        = some DebugErr.serviceNameRequired
      ↔ services.length ≠ 1 := by
  rcases services with _ | ⟨p, _ | ⟨q, t⟩⟩
  · simp [setup_select_single]
  · rw [setup_select_single_singleton]
    constructor
    · intro h
      obtain ⟨op, hop⟩ := setup_steps_error_containerOp fail p.1 p.2 pw mounted ws _ h
      exact absurd hop (by simp)
    · intro habs
      exact absurd rfl habs
  · simp [setup_select_single, List.length_cons]

theorem setup_debug_mode_truthy_no_require (fail : FailSpec)
    (services : List (String × PebbleService)) (pw : String) (n : String)
    (mounted : List HostPath) (ws : String) (hn : ¬ n = "") :
    (setup_debug_mode fail services pw (some n) mounted ws).2
      ≠ some DebugErr.serviceNameRequired := by
  rw [setup_debug_mode_some_hint fail services pw n mounted ws hn]
  intro h
  cases hfind : services.find? (fun p => p.1 == n) with
  | some p =>
    simp only [hfind] at h
    obtain ⟨op, hop⟩ := setup_steps_error_containerOp fail n p.2 pw mounted ws _ h
    exact absurd hop (by simp)
  | none =>
    simp only [hfind] at h
    exact absurd (Option.some.inj h) (by simp)

/-! ### Branch characterizations of `enable` and `disable` -/

theorem enable_fast_path (fail : FailSpec) (hint : Option String) (w : World)
    (hstarted : w.stored.debug_mode_started = true)
    (hdelta : hostpaths_to_reconfigure w.config w.hostpaths w.sts.volumes = []) :
    enable fail hint w
      = { world := { w with status := Status.active "debug-mode: ready" }
          effects := [], error := none } := by
  rw [enable]
  dsimp only
  rw [hdelta]
  simp [hstarted]

theorem enable_configure_path (fail : FailSpec) (hint : Option String) (w : World)
    (hdelta : ¬ hostpaths_to_reconfigure w.config w.hostpaths w.sts.volumes = []) :
    enable fail hint w
      = { world := { w with
            status := Status.maintenance "debug-mode: configuring hostpaths"
            sts := configure_hostpaths w.config w.containerName
              (hostpaths_to_reconfigure w.config w.hostpaths w.sts.volumes) w.sts }
          effects := [Effect.replace (configure_hostpaths w.config w.containerName
            (hostpaths_to_reconfigure w.config w.hostpaths w.sts.volumes) w.sts)]
          error := none } := by
  rw [enable]
  dsimp only
  have h1 : (hostpaths_to_reconfigure w.config w.hostpaths w.sts.volumes).isEmpty
      = false := by
    simpa [List.isEmpty_iff] using hdelta
  simp [h1]

theorem enable_setup_error_path (fail : FailSpec) (hint : Option String) (w : World)
    (e : DebugErr)
    (hstarted : w.stored.debug_mode_started = false)
    (hdelta : hostpaths_to_reconfigure w.config w.hostpaths w.sts.volumes = [])
    (hsetup : (setup_debug_mode fail w.services (token_hex 8 w.passwordSeed) hint
        (w.hostpaths.filter (fun hp => configTruthy w.config hp.config))
        w.vscodeWorkspace).2 = some e) :
    enable fail hint w
      = { world := { w with status := Status.maintenance "debug-mode: starting" }
          effects := (setup_debug_mode fail w.services (token_hex 8 w.passwordSeed) hint
            (w.hostpaths.filter (fun hp => configTruthy w.config hp.config))
            w.vscodeWorkspace).1
          error := some e } := by
  rw [enable]
  dsimp only
  rw [hdelta]
  simp [hstarted, hsetup]

theorem enable_setup_success_path (fail : FailSpec) (hint : Option String) (w : World)
    (hstarted : w.stored.debug_mode_started = false)
    (hdelta : hostpaths_to_reconfigure w.config w.hostpaths w.sts.volumes = [])
    (hsetup : (setup_debug_mode fail w.services (token_hex 8 w.passwordSeed) hint
        (w.hostpaths.filter (fun hp => configTruthy w.config hp.config))
        w.vscodeWorkspace).2 = none) :
    enable fail hint w
      = { world := { w with
            stored := { debug_mode_started := true
                        debug_mode_vscode_command :=
                          some (get_vscode_command w.podIp "root" "/debug.code-workspace")
                        debug_mode_password := some (token_hex 8 w.passwordSeed) }
            status := Status.active "debug-mode: ready" }
          effects := (setup_debug_mode fail w.services (token_hex 8 w.passwordSeed) hint
            (w.hostpaths.filter (fun hp => configTruthy w.config hp.config))
            w.vscodeWorkspace).1
          error := none } := by
  rw [enable]
  dsimp only
  rw [hdelta]
  simp [hstarted, hsetup]

theorem enable_error_inv (fail : FailSpec) (hint : Option String) (w : World)
    (e : DebugErr) (herr : (enable fail hint w).error = some e) :
    w.stored.debug_mode_started = false ∧
      hostpaths_to_reconfigure w.config w.hostpaths w.sts.volumes = [] := by
  by_cases hd : hostpaths_to_reconfigure w.config w.hostpaths w.sts.volumes = []
  · by_cases hs : w.stored.debug_mode_started = true
    · rw [enable_fast_path fail hint w hs hd] at herr
      exact Option.noConfusion herr
    · exact ⟨by simpa using hs, hd⟩
  · rw [enable_configure_path fail hint w hd] at herr
    exact Option.noConfusion herr

theorem disable_mounted_not_started (w : World)
    (hflag : (unmount_hostpaths w.containerName w.hostpaths w.sts).2 = true)
    (hstarted : w.stored.debug_mode_started = false) :
    disable w
      = { world := { w with sts := (unmount_hostpaths w.containerName w.hostpaths w.sts).1 }
          effects := [Effect.replace (unmount_hostpaths w.containerName w.hostpaths w.sts).1] } := by
  rw [disable]
  dsimp only
  simp [hflag, hstarted]

theorem disable_mounted_started (w : World)
    (hflag : (unmount_hostpaths w.containerName w.hostpaths w.sts).2 = true)
    (hstarted : w.stored.debug_mode_started = true) :
    disable w
      = { world := { w with
            sts := (unmount_hostpaths w.containerName w.hostpaths w.sts).1
            stored := { debug_mode_started := false
                        debug_mode_vscode_command := none
                        debug_mode_password := none } }
          effects := [Effect.replace (unmount_hostpaths w.containerName w.hostpaths w.sts).1] } := by
  rw [disable]
  dsimp only
  simp [hflag, hstarted]

/-! ### Claims -/

/-- C1: for every string `configKey`, the HostPath resolver is pure and total
and yields `mountPath = "/" ++ join("/", reverse(split(configKey, "-")))`;
`"module-hostpath"` yields `"/hostpath/module"`, and the empty `configKey`
yields the degenerate mount path `"/"` rather than an error. -/
theorem claim_C1_hostpath_resolver (configKey container_path : String)
    (submodules : Option (List (String × String))) :
    (HostPath.make configKey container_path submodules).mount_path
        = "/" ++ String.intercalate "/" ((pySplit configKey '-').reverse)
      ∧ (HostPath.make "module-hostpath" container_path submodules).mount_path
        = "/hostpath/module"
      ∧ (HostPath.make "" container_path submodules).mount_path = "/" := by
  have h : ∀ (ck cp : String) (sm : Option (List (String × String))),
      (HostPath.make ck cp sm).mount_path
        = "/" ++ String.intercalate "/" ((pySplit ck '-').reverse) := by
    intro ck cp sm
    cases sm with
    | none => rfl
    | some subs =>
      rw [HostPath.make]
      split <;> rfl
  exact ⟨h _ _ _, by rw [h]; rfl, by rw [h]; rfl⟩

/-- C2: the reconcile subset computed by `enable` contains exactly those
configured HostPathSpecs whose desired flag (truthy config value) differs from
the currently-mounted flag (a live volume carries the config key as name);
specs where the two agree are never included. -/
theorem claim_C2_reconcile_subset (cfg : List (String × String))
    (hostpaths : List HostPath) (volumes : List Volume) (hp : HostPath) :
    hp ∈ hostpaths_to_reconfigure cfg hostpaths volumes ↔
      hp ∈ hostpaths ∧
        configTruthy cfg hp.config ≠ volumes.any (fun v => v.name == hp.config) :=
  mem_hostpaths_to_reconfigure cfg hostpaths volumes hp

/-- C3: once the session is started and the mount delta is empty, two
successive `enable()` calls issue no cluster mutation, no container write and
no credential regeneration (no effects at all), report the ready status both
times, and leave the stored record unchanged. -/
theorem claim_C3_enable_idempotent (fail : FailSpec) (hint : Option String)
    (w : World) (hstarted : w.stored.debug_mode_started = true)
    (hdelta : hostpaths_to_reconfigure w.config w.hostpaths w.sts.volumes = []) :
    (enable fail hint w).effects = [] ∧
      (enable fail hint (enable fail hint w).world).effects = [] ∧
      (enable fail hint w).error = none ∧
      (enable fail hint (enable fail hint w).world).error = none ∧
      (enable fail hint w).world.status = Status.active "debug-mode: ready" ∧
      (enable fail hint (enable fail hint w).world).world.status
        = Status.active "debug-mode: ready" ∧
      (enable fail hint w).world.stored = w.stored ∧
      (enable fail hint (enable fail hint w).world).world.stored = w.stored ∧
      (enable fail hint (enable fail hint w).world).world
        = (enable fail hint w).world := by
  have h1 := enable_fast_path fail hint w hstarted hdelta
  have h2 := enable_fast_path fail hint
    { w with status := Status.active "debug-mode: ready" } hstarted hdelta
  rw [h1]
  dsimp only
  rw [h2]
  simp

/-- Witness for C3: the concrete started world `wReady` satisfies both
hypotheses, and the ready status is reported. -/
theorem claim_C3_witness :
    wReady.stored.debug_mode_started = true ∧
      hostpaths_to_reconfigure wReady.config wReady.hostpaths wReady.sts.volumes = [] ∧
      (enable FailSpec.none none wReady).world.status
        = Status.active "debug-mode: ready" :=
  ⟨rfl, rfl,
    (claim_C3_enable_idempotent FailSpec.none none wReady rfl rfl).2.2.2.2.1⟩

/-- C8: when the session is not started and no configured hostpath has a live
volume, `disable()` is a no-op: no cluster replace, no container operation, the
stored record, pod spec and unit status are all unchanged. -/
theorem claim_C8_disable_noop (w : World)
    (hstarted : w.stored.debug_mode_started = false)
    (hnomount : ∀ hp ∈ w.hostpaths, ∀ v ∈ w.sts.volumes, ¬ v.name = hp.config) :
    disable w = { world := w, effects := [] } := by
  have hu := unmount_no_match w.containerName w.hostpaths w.sts hnomount
  rw [disable]
  dsimp only
  rw [unmount_hostpaths_eq]
  simp [hu.1, hu.2, hstarted]

/-- Witness for C8: the fresh world `wFresh` satisfies both hypotheses and
`disable` leaves it untouched. -/
theorem claim_C8_witness :
    wFresh.stored.debug_mode_started = false ∧
      disable wFresh = { world := wFresh, effects := [] } :=
  ⟨rfl, claim_C8_disable_noop wFresh rfl
    (by intro hp _ v hv; simp [wFresh, podSpecEmpty] at hv)⟩

/-- C9: the stored session record satisfies `started = false ↔ command and
credential both absent` at the construction default and after every completed
`enable()` (smooth or failing) and `disable()` invocation. -/
theorem claim_C9_session_invariant :
    sessionInv StoredState.default ∧
      (∀ (fail : FailSpec) (hint : Option String) (w : World),
        sessionInv w.stored → sessionInv (enable fail hint w).world.stored) ∧
      (∀ w : World, sessionInv w.stored → sessionInv (disable w).world.stored) := by
  refine ⟨by simp [sessionInv, StoredState.default], ?_, ?_⟩
  · intro fail hint w hw
    rw [enable]
    dsimp only
    split
    · exact hw
    · split
      · exact hw
      · split
        · exact hw
        · simp [sessionInv]
  · intro w hw
    rw [disable]
    dsimp only
    split
    · split <;> exact hw
    · split <;> simp [sessionInv]

/-- Witness for C9: the invariant transfer applied at the fresh world. -/
theorem claim_C9_witness :
    sessionInv wFresh.stored ∧
      sessionInv (enable FailSpec.none none wFresh).world.stored :=
  ⟨by simp [sessionInv, wFresh, StoredState.default],
    claim_C9_session_invariant.2.1 FailSpec.none none wFresh
      (by simp [sessionInv, wFresh, StoredState.default])⟩

/-- C10: if `enable()` propagates an error (any failing step of session
setup), the stored session record is unchanged: `started` remains false and
command and credential remain absent — persistence happens only after setup
returns. -/
theorem claim_C10_setup_failure_frame (fail : FailSpec) (hint : Option String)
    (w : World) (hinv : sessionInv w.stored) (e : DebugErr)
    (herr : (enable fail hint w).error = some e) :
    (enable fail hint w).world.stored = w.stored ∧
      (enable fail hint w).world.stored.debug_mode_started = false ∧
      (enable fail hint w).world.stored.debug_mode_vscode_command = none ∧
      (enable fail hint w).world.stored.debug_mode_password = none := by
  obtain ⟨hstarted, hdelta⟩ := enable_error_inv fail hint w e herr
  have hnone : (w.stored.debug_mode_vscode_command = none ∧
      w.stored.debug_mode_password = none) := hinv.mp hstarted
  by_cases hsetup : (setup_debug_mode fail w.services (token_hex 8 w.passwordSeed) hint
      (w.hostpaths.filter (fun hp => configTruthy w.config hp.config))
      w.vscodeWorkspace).2 = none
  · rw [enable_setup_success_path fail hint w hstarted hdelta hsetup] at herr
    exact Option.noConfusion herr
  · obtain ⟨e2, he2⟩ := Option.ne_none_iff_exists.mp hsetup
    rw [enable_setup_error_path fail hint w e2 hstarted hdelta he2.symm]
    exact ⟨rfl, hstarted, hnone.1, hnone.2⟩

/-- Counterexample for C6: with no hint and zero configured processes,
session setup raises the fatal configuration error even though "more than one
candidate process is configured" is false, refuting the claimed "precisely
when more than one"; and a supplied empty-string hint is Python-falsy, so it
raises the same error on that plan instead of proceeding past the check. -/
theorem claim_C6_counterexample :
    ((setup_debug_mode FailSpec.none [] "pw" none [] "ws").2
        = some DebugErr.serviceNameRequired
      ∧ ¬ 1 < ([] : List (String × PebbleService)).length)
    ∧ (setup_debug_mode FailSpec.none [] "pw" (some "") [] "ws").2
        = some DebugErr.serviceNameRequired :=
  ⟨⟨rfl, by decide⟩, rfl⟩

/-- C6 (amended): session setup raises the fatal service-name configuration
error precisely when the hint is Python-falsy (absent or the empty string) and
the number of configured processes differs from one (zero or several); with
exactly one configured process, or with a non-empty hint, it proceeds past
the check. -/
theorem claim_C6_service_check (fail : FailSpec)
    (services : List (String × PebbleService)) (password : String)
    (mounted : List HostPath) (ws : String) (hint : Option String) :
    (setup_debug_mode fail services password hint mounted ws).2
        = some DebugErr.serviceNameRequired
      ↔ ((hint = none ∨ hint = some "") ∧ services.length ≠ 1) := by
  cases hint with
  | none =>
    rw [setup_debug_mode_none_eq, setup_select_single_requires_iff]
    simp
  | some n =>
    by_cases hn : n = ""
    · subst hn
      rw [setup_debug_mode_empty_hint, setup_select_single_requires_iff]
      simp
    · constructor
      · intro h
        exact absurd h
          (setup_debug_mode_truthy_no_require fail services password n mounted ws hn)
      · rintro ⟨h1 | h1, _⟩
        · exact Option.noConfusion h1
        · exact absurd (Option.some.inj h1) hn

/-- C5: with the reconcile subset empty and the session not yet started, a
successful `enable()` performs session setup (pushes the environment file, the
workspace and the bootstrap script, executes it, stops the service) and
afterwards has `started = true`, the credential set to the freshly generated
16-hex-character token, a launch command containing the pod IP, and reports
the ready status. -/
theorem claim_C5_enable_starts_session (fail : FailSpec) (hint : Option String)
    (w : World)
    (hstarted : w.stored.debug_mode_started = false)
    (hdelta : hostpaths_to_reconfigure w.config w.hostpaths w.sts.volumes = [])
    (hok : (enable fail hint w).error = none) :
    (enable fail hint w).world.stored.debug_mode_started = true ∧
      (enable fail hint w).world.stored.debug_mode_password
        = some (token_hex 8 w.passwordSeed) ∧
      (token_hex 8 w.passwordSeed).length = 16 ∧
      (∀ c ∈ (token_hex 8 w.passwordSeed).toList, isHexChar c = true) ∧
      (∃ a b, (enable fail hint w).world.stored.debug_mode_vscode_command
        = some (a ++ (w.podIp ++ b))) ∧
      (enable fail hint w).world.status = Status.active "debug-mode: ready" ∧
      Effect.push "/debug.code-workspace" w.vscodeWorkspace
        ∈ (enable fail hint w).effects ∧
      Effect.push "/debug.sh" (debug_script (token_hex 8 w.passwordSeed))
        ∈ (enable fail hint w).effects ∧
      Effect.exec ["/debug.sh"] ∈ (enable fail hint w).effects ∧
      (∃ env, Effect.push "/debug.envs" env ∈ (enable fail hint w).effects) ∧
      (∃ sn, Effect.stop sn ∈ (enable fail hint w).effects) := by
  by_cases hsetup : (setup_debug_mode fail w.services (token_hex 8 w.passwordSeed) hint
      (w.hostpaths.filter (fun hp => configTruthy w.config hp.config))
      w.vscodeWorkspace).2 = none
  case neg =>
    obtain ⟨e2, he2⟩ := Option.ne_none_iff_exists.mp hsetup
    rw [enable_setup_error_path fail hint w e2 hstarted hdelta he2.symm] at hok
    exact Option.noConfusion hok
  case pos =>
    have hmem := setup_debug_mode_success_effects fail w.services
      (token_hex 8 w.passwordSeed) hint
      (w.hostpaths.filter (fun hp => configTruthy w.config hp.config))
      w.vscodeWorkspace hsetup
    rw [enable_setup_success_path fail hint w hstarted hdelta hsetup]
    refine ⟨rfl, rfl, token_hex_length 8 w.passwordSeed, token_hex_is_hex 8 w.passwordSeed,
      ⟨"code --remote ssh-remote+" ++ "root" ++ "@", " " ++ "/debug.code-workspace", ?_⟩,
      rfl, hmem.1, hmem.2.1, hmem.2.2.1, hmem.2.2.2.1, hmem.2.2.2.2⟩
    rw [get_vscode_command, String.append_assoc, String.append_assoc]

/-- Witness for C5: a successful enable on the fresh world `wFresh`. -/
theorem claim_C5_witness :
    wFresh.stored.debug_mode_started = false ∧
      hostpaths_to_reconfigure wFresh.config wFresh.hostpaths wFresh.sts.volumes = [] ∧
      (enable FailSpec.none none wFresh).error = none ∧
      (enable FailSpec.none none wFresh).world.stored.debug_mode_started = true ∧
      (enable FailSpec.none none wFresh).world.status
        = Status.active "debug-mode: ready" :=
  ⟨rfl, rfl, rfl,
    (claim_C5_enable_starts_session FailSpec.none none wFresh rfl rfl rfl).1,
    (claim_C5_enable_starts_session
        FailSpec.none none wFresh rfl rfl rfl).2.2.2.2.2.1⟩

/-- C4: for a configured spec whose desired flag is true and which has no
matching live volume (given unique config keys among the configured specs,
and a workload spec with no stale mount of that name), `enable()` adds exactly
one volume named `configKey` sourcing the configured host path and exactly one
matching volume-mount at the mount path of the spec on the workload container,
issues the single combined replace as its only effect, and returns without
session setup and without modifying the stored record. -/
theorem claim_C4_enable_adds_hostpath (fail : FailSpec) (hint : Option String)
    (w : World) (hp : HostPath) (v : String)
    (hmem : hp ∈ w.hostpaths)
    (hnodup : (w.hostpaths.map (fun h => h.config)).Nodup)
    (hval : configGet w.config hp.config = some v)
    (htruthy : configTruthy w.config hp.config = true)
    (hnolive : ∀ vol ∈ w.sts.volumes, ¬ vol.name = hp.config)
    (hnomount : ∀ c ∈ w.sts.containers, c.name = w.containerName →
        ∀ m ∈ c.volumeMounts, ¬ m.name = hp.config) :
    (enable fail hint w).effects = [Effect.replace (enable fail hint w).world.sts] ∧
      (enable fail hint w).error = none ∧
      (enable fail hint w).world.stored = w.stored ∧
      ((enable fail hint w).world.sts.volumes.filter
          (fun vol => vol.name == hp.config))
        = [{ name := hp.config
             hostPath := some { path := v, type := "Directory" } }] ∧
      ∀ c ∈ (enable fail hint w).world.sts.containers, c.name = w.containerName →
        (c.volumeMounts.filter (fun m => m.name == hp.config))
          = [{ name := hp.config, mountPath := hp.mount_path }] := by
  have hany : w.sts.volumes.any (fun vol => vol.name == hp.config) = false := by
    rw [List.any_eq_false]
    intro vol hvol
    simpa using hnolive vol hvol
  have hin : hp ∈ hostpaths_to_reconfigure w.config w.hostpaths w.sts.volumes :=
    (mem_hostpaths_to_reconfigure _ _ _ _).mpr
      ⟨hmem, by rw [htruthy, hany]; simp⟩
  have hdne : ¬ hostpaths_to_reconfigure w.config w.hostpaths w.sts.volumes = [] := by
    intro h
    rw [h] at hin
    cases hin
  have hTsub : List.Sublist
      (hostpaths_to_reconfigure w.config w.hostpaths w.sts.volumes) w.hostpaths :=
    List.filter_sublist _
  have hTnodup : ((hostpaths_to_reconfigure w.config w.hostpaths
      w.sts.volumes).map (fun h => h.config)).Nodup :=
    List.Nodup.sublist (hTsub.map _) hnodup
  obtain ⟨l₁, l₂, hT⟩ := List.append_of_mem hin
  have hmapT : (l₁.map (fun h => h.config)
      ++ hp.config :: l₂.map (fun h => h.config)).Nodup := by
    rw [hT] at hTnodup
    simpa using hTnodup
  have hl₁ : ∀ x ∈ l₁, ¬ x.config = hp.config := by
    intro x hx hxc
    exact (List.nodup_append.mp hmapT).2.2
      (List.mem_map.mpr ⟨x, hx, hxc⟩) (List.mem_cons_self _ _)
  have hl₂ : ∀ x ∈ l₂, ¬ x.config = hp.config := by
    intro x hx hxc
    exact (List.nodup_cons.mp (List.nodup_append.mp hmapT).2.1).1
      (List.mem_map.mpr ⟨x, hx, hxc⟩)
  have hbase := configure_fold_pres w.config w.containerName hp.config [] [] l₁ hl₁
    w.sts
    (by
      rw [List.filter_eq_nil_iff]
      intro vol hvol
      simpa using hnolive vol hvol)
    (by
      intro c hc hn
      rw [List.filter_eq_nil_iff]
      intro m hm
      simpa using hnomount c hc hn m hm)
  have hstep := add_hostpath_establishes w.config w.containerName hp
    (configure_hostpaths w.config w.containerName l₁ w.sts) hbase.1 hbase.2
  have hfin := configure_fold_pres w.config w.containerName hp.config
    [{ name := hp.config
       hostPath := some { path := (configGet w.config hp.config).getD ""
                          type := "Directory" } }]
    [{ name := hp.config, mountPath := hp.mount_path }] l₂ hl₂
    (add_hostpath_to_statefulset w.config w.containerName hp
      (configure_hostpaths w.config w.containerName l₁ w.sts))
    hstep.1 hstep.2
  simp only [hval, Option.getD_some] at hfin
  rw [enable_configure_path fail hint w hdne]
  refine ⟨rfl, rfl, rfl, ?_, ?_⟩
  · rw [hT, configure_hostpaths_append, configure_hostpaths_cons, if_pos htruthy]
    exact hfin.1
  · rw [hT, configure_hostpaths_append, configure_hostpaths_cons, if_pos htruthy]
    exact hfin.2

/-- Witness for C4: enabling on `wWant` (flag set, volume absent) issues
exactly the combined replace and adds the volume and mount for `hpApp`. -/
theorem claim_C4_witness :
    hpApp ∈ wWant.hostpaths ∧
      configTruthy wWant.config hpApp.config = true ∧
      ((enable FailSpec.none none wWant).world.sts.volumes.filter
          (fun vol => vol.name == hpApp.config))
        = [{ name := hpApp.config
             hostPath := some { path := "/home/dev/app", type := "Directory" } }] ∧
      (enable FailSpec.none none wWant).world.stored = wWant.stored :=
  ⟨List.mem_cons_self _ _, rfl,
    (claim_C4_enable_adds_hostpath FailSpec.none none wWant hpApp "/home/dev/app"
      (List.mem_cons_self _ _) (by simp [wWant, wFresh]) rfl rfl
      (by intro vol hvol; simp [wWant, wFresh, podSpecEmpty] at hvol)
      (by
        intro c hc hn m hm
        simp only [wWant, wFresh, podSpecEmpty] at hc
        simp only [List.mem_singleton] at hc
        subst hc
        simp at hm)).2.2.2.1,
    (claim_C4_enable_adds_hostpath FailSpec.none none wWant hpApp "/home/dev/app"
      (List.mem_cons_self _ _) (by simp [wWant, wFresh]) rfl rfl
      (by intro vol hvol; simp [wWant, wFresh, podSpecEmpty] at hvol)
      (by
        intro c hc hn m hm
        simp only [wWant, wFresh, podSpecEmpty] at hc
        simp only [List.mem_singleton] at hc
        subst hc
        simp at hm)).2.2.1⟩

/-- C7: when at least one configured spec has a matching live volume (with
unique volume names and, per workload container, unique mount names),
`disable()` issues the single combined replace as its only effect and the
replaced spec has, for every mounted spec, neither its volume nor its matching
volume-mount; if `started` was true the stored fields are cleared; and if
`started` was true but no mount was removed, the status captured at entry is
restored and the HUP-to-PID-1 supervisor reload is issued. -/
theorem claim_C7_disable_unmounts (w : World) (hp0 : HostPath)
    (hmem0 : hp0 ∈ w.hostpaths)
    (hmounted : w.sts.volumes.any (fun vol => vol.name == hp0.config) = true)
    (hnodupv : (w.sts.volumes.map (fun vol => vol.name)).Nodup)
    (hnodupm : ∀ c ∈ w.sts.containers, c.name = w.containerName →
        ((c.volumeMounts.map (fun m => m.name)).Nodup)) :
    (disable w).effects = [Effect.replace (disable w).world.sts] ∧
      (∀ hp ∈ w.hostpaths,
        (∀ vol ∈ (disable w).world.sts.volumes, ¬ vol.name = hp.config) ∧
        (w.sts.volumes.any (fun vol => vol.name == hp.config) = true →
          ∀ c ∈ (disable w).world.sts.containers, c.name = w.containerName →
            ∀ m ∈ c.volumeMounts, ¬ m.name = hp.config)) ∧
      (w.stored.debug_mode_started = true →
        (disable w).world.stored
          = { debug_mode_started := false
              debug_mode_vscode_command := none
              debug_mode_password := none }) ∧
      ((w.stored.debug_mode_started = true ∧
          (unmount_hostpaths w.containerName w.hostpaths w.sts).2 = false) →
        ((disable w).world.status = w.status ∧
          Effect.exec ["kill", "-HUP", "1"] ∈ (disable w).effects)) := by
  have hflag : (unmount_hostpaths w.containerName w.hostpaths w.sts).2 = true := by
    rw [unmount_hostpaths_eq]
    exact unmount_flag_true w.containerName w.hostpaths w.sts ⟨hp0, hmem0, hmounted⟩
  have hsts : (unmount_hostpaths w.containerName w.hostpaths w.sts).1
      = unmount_sts w.containerName w.hostpaths w.sts := by
    rw [unmount_hostpaths_eq]
  have hprops : ∀ hp ∈ w.hostpaths,
      (∀ vol ∈ (unmount_sts w.containerName w.hostpaths w.sts).volumes,
        ¬ vol.name = hp.config) ∧
      (w.sts.volumes.any (fun vol => vol.name == hp.config) = true →
        ∀ c ∈ (unmount_sts w.containerName w.hostpaths w.sts).containers,
          c.name = w.containerName → ∀ m ∈ c.volumeMounts, ¬ m.name = hp.config) := by
    intro hp hmem
    exact ⟨unmount_sts_removes_volumes w.containerName w.hostpaths w.sts hnodupv hp hmem,
      fun hany => unmount_sts_removes_mounts w.containerName w.hostpaths w.sts
        hnodupv hnodupm hp hmem hany⟩
  have hcontra : ¬ (w.stored.debug_mode_started = true ∧
      (unmount_hostpaths w.containerName w.hostpaths w.sts).2 = false) := by
    rintro ⟨_, hf⟩
    rw [hflag] at hf
    exact Bool.noConfusion hf
  by_cases hst : w.stored.debug_mode_started = true
  · rw [disable_mounted_started w hflag hst]
    refine ⟨rfl, ?_, fun _ => rfl, fun h => absurd h hcontra⟩
    intro hp hmem
    simpa [hsts] using hprops hp hmem
  · rw [disable_mounted_not_started w hflag (by simpa using hst)]
    refine ⟨rfl, ?_, fun h => absurd h hst, fun h => absurd h hcontra⟩
    intro hp hmem
    simpa [hsts] using hprops hp hmem

/-- Witness for C7: disabling `wReady` (mounted, started) removes the volume
and mount and clears the stored record. -/
theorem claim_C7_witness :
    hpApp ∈ wReady.hostpaths ∧
      wReady.sts.volumes.any (fun vol => vol.name == hpApp.config) = true ∧
      (disable wReady).effects = [Effect.replace (disable wReady).world.sts] ∧
      (disable wReady).world.stored
        = { debug_mode_started := false
            debug_mode_vscode_command := none
            debug_mode_password := none } :=
  ⟨List.mem_cons_self _ _, rfl,
    (claim_C7_disable_unmounts wReady hpApp (List.mem_cons_self _ _) rfl
      (by simp [wReady, podSpecMounted])
      (by
        intro c hc hn
        simp only [wReady, podSpecMounted] at hc
        simp only [List.mem_singleton] at hc
        subst hc
        simp)).1,
    (claim_C7_disable_unmounts wReady hpApp (List.mem_cons_self _ _) rfl
      (by simp [wReady, podSpecMounted])
      (by
        intro c hc hn
        simp only [wReady, podSpecMounted] at hc
        simp only [List.mem_singleton] at hc
        subst hc
        simp)).2.2.1 rfl⟩

/-- Witness for C10: enabling on a unit whose Pebble plan has no service (and
no hint given) raises, and the stored record stays at its default. -/
theorem claim_C10_witness :
    sessionInv wErr.stored ∧
      (enable FailSpec.none none wErr).error = some DebugErr.serviceNameRequired ∧
      (enable FailSpec.none none wErr).world.stored = wErr.stored :=
  ⟨by simp [sessionInv, wErr, wFresh, StoredState.default], rfl,
    (claim_C10_setup_failure_frame FailSpec.none none wErr
      (by simp [sessionInv, wErr, wFresh, StoredState.default])
      DebugErr.serviceNameRequired rfl).1⟩

end OsmUtils
